import Mathlib

set_option linter.unusedVariables false

/-! Shallow embedding of `pr_to_copilot.py`, a script that parses a GitHub
pull-request identifier, fetches review data through the `gh` CLI, extracts
comment records, formats them into a markdown prompt, writes the prompt to a
file and optionally opens an editor.

Python conventions modelled explicitly:
* `Option String` models a Python value that may be `None`; `optTruthy`
  models Python truthiness of such a value (`None` and `""` are falsy).
* `pyStrip` models `str.strip()`, with `Char.isWhitespace` standing in for
  the whitespace class of Python.
* `Char.isDigit` (ASCII digits) stands in for the Python `str.isdigit` and the
  regex class `\d`; the script inputs are ASCII identifiers and URLs.
* External effects (subprocess results, the file system, the clipboard) are
  passed in explicitly as data; side effects performed by the script are
  collected into event traces.
-/

/-- Python truthiness of an optional string: `None` and `""` are falsy. -/
def optTruthy : Option String → Bool
  | none => false
  | some s => s != ""

/-- Python truthiness of an optional integer: `None` and `0` are falsy. -/
def intTruthy : Option Int → Bool
  | none => false
  | some n => n != 0

/-- Python `a or b` on optional integers (used for
`comment.get("line") or comment.get("original_line")`). -/
def pyOrInt (a b : Option Int) : Option Int :=
  if intTruthy a then a else b

/-- Python `str.strip()`: drop whitespace from both ends. -/
def pyStrip (s : String) : String :=
  ⟨((s.data.dropWhile Char.isWhitespace).reverse.dropWhile Char.isWhitespace).reverse⟩

/-- Python `str.isdigit()`: non-empty and every character a digit. -/
def pyIsdigit (s : String) : Bool :=
  !s.data.isEmpty && s.data.all Char.isDigit

/-- Test that the character list `l` begins with `pat` (used to model
matching a literal piece of a regular expression). -/
def startsWith : List Char → List Char → Bool
  | [], _ => true
  | _ :: _, [] => false
  | p :: ps, c :: cs => p == c && startsWith ps cs

/-- The literal head of the URL regex `https://github\.com/`. -/
def urlHead : List Char := "https://github.com/".data

/-- The literal middle piece `/pull/` of the URL regex. -/
def pullSeg : List Char := "/pull/".data

/-- Attempt to match the regex `https://github\.com/([^/]+/[^/]+)/pull/(\d+)`
at the start of `l`, returning the two capture groups (repo, pr number).
Because `[^/]` and the literal `/` are disjoint and `(\d+)` ends the pattern,
greedy backtracking in the regex engine is deterministic and equals this
direct munching of maximal runs. -/
def matchUrlAt (l : List Char) : Option (String × String) :=
  if startsWith urlHead l then
    let r0 := l.drop urlHead.length
    let owner := r0.takeWhile (fun c => c != '/')
    match r0.dropWhile (fun c => c != '/') with
    | '/' :: r1 =>
      let repo := r1.takeWhile (fun c => c != '/')
      let r2 := r1.dropWhile (fun c => c != '/')
      if owner.isEmpty || repo.isEmpty then none
      else if startsWith pullSeg r2 then
        let num := (r2.drop pullSeg.length).takeWhile Char.isDigit
        if num.isEmpty then none
        else some (⟨owner ++ '/' :: repo⟩, ⟨num⟩)
      else none
    | _ => none
  else none

/-- Model of `re.search` for the URL pattern: try each start position left
to right and return the first match. -/
def scanUrl : List Char → Option (String × String)
  | [] => none
  | c :: cs =>
    match matchUrlAt (c :: cs) with
    | some r => some r
    | none => scanUrl cs

/-- The literal head of the review regex `pullrequestreview-`. -/
def reviewHead : List Char := "pullrequestreview-".data

/-- Attempt to match `pullrequestreview-(\d+)` at the start of `l`. -/
def matchReviewAt (l : List Char) : Option String :=
  if startsWith reviewHead l then
    let num := (l.drop reviewHead.length).takeWhile Char.isDigit
    if num.isEmpty then none else some ⟨num⟩
  else none

/-- Model of `re.search` for the review pattern. -/
def scanReview : List Char → Option String
  | [] => none
  | c :: cs =>
    match matchReviewAt (c :: cs) with
    | some r => some r
    | none => scanReview cs

/-- The function `parse_pr_url`: parse a GitHub PR URL or bare number into
(repo, pr number, review id); raises `ValueError` (modelled as `.error` with
the exception message) on malformed input. -/
def parse_pr_url (input_str : String) :
    Except String (Option String × String × Option String) :=
  if pyIsdigit input_str then
    .ok (none, input_str, none)
  else
    match scanUrl input_str.data with
    | some (repo, pr_number) =>
      .ok (some repo, pr_number, scanReview input_str.data)
    | none => .error "Invalid input. Provide either a GitHub PR URL or PR number."

example : parse_pr_url "937" = .ok (none, "937", none) := by rfl
example : parse_pr_url "https://github.com/acme/widgets/pull/42#pullrequestreview-777"
    = .ok (some "acme/widgets", "42", some "777") := by rfl
example : parse_pr_url "https://github.com/owner/repo/pull/123"
    = .ok (some "owner/repo", "123", none) := by rfl
example : parse_pr_url "nonsense"
    = .error "Invalid input. Provide either a GitHub PR URL or PR number." := by rfl
example : parse_pr_url "" = .error "Invalid input. Provide either a GitHub PR URL or PR number." := by rfl
example : parse_pr_url "x https://github.com/a/b/pull/7 pullrequestreview-9"
    = .ok (some "a/b", "7", some "9") := by rfl
example : parse_pr_url "https://github.com/quark/widgets/pull/5"
    = .ok (some "quark/widgets", "5", none) := by rfl

/-- A comment record as built by `extract_pr_comments`. Python builds dicts
whose key sets differ per record kind; fields absent from a given dict are
modelled as `none` (`dict.get` on an absent key yields `None`). The Python
key `type` is rendered as `ctype` (`type` is a Lean keyword). -/
structure CommentRec where
  ctype : String
  author : String
  content : String
  state : Option String
  file : Option String
  line : Option Int
  diff_side : Option String
  review_id : Option String
deriving DecidableEq

/-- One element of `pr_data["reviews"]` from `gh pr view --json reviews,...`. -/
structure ReviewItem where
  author_login : String
  body : String
  state : String
  id : Option String
deriving DecidableEq

/-- One element of `pr_data["comments"]`. -/
structure IssueComment where
  author_login : String
  body : String
deriving DecidableEq

/-- One comment inside a review thread. -/
structure ThreadComment where
  author_login : String
  body : String
deriving DecidableEq

/-- One element of `pr_data["reviewThreads"]`. -/
structure ReviewThread where
  comments : List ThreadComment
  path : Option String
  line : Option Int
  side : Option String
deriving DecidableEq

/-- The mapping returned by `gh pr view ... --json
reviews,comments,reviewThreads,title,body,author`; a failed fetch returns the
empty mapping, i.e. `title`/`body` absent and the lists empty. -/
structure PrData where
  title : Option String
  body : Option String
  author_login : String
  reviews : List ReviewItem
  comments : List IssueComment
  reviewThreads : List ReviewThread
deriving DecidableEq

/-- The review object from `GET /repos/{repo}/pulls/{pr}/reviews/{id}`;
`none` models the empty mapping returned after a failed fetch. -/
structure ApiReview where
  user_login : String
  body : Option String
  state : String
deriving DecidableEq

/-- One element of `GET /repos/{repo}/pulls/{pr}/reviews/{id}/comments`. -/
structure ApiReviewComment where
  user_login : String
  body : String
  path : Option String
  line : Option Int
  original_line : Option Int
  side : Option String
deriving DecidableEq

/-- All data the script can fetch for one PR: the two review-id-mode API
results and the full-mode `gh pr view` result. -/
structure FetchedData where
  reviewData : Option ApiReview
  reviewComments : List ApiReviewComment
  prData : PrData
deriving DecidableEq

/-- The author-filter skip test `if username and record_author != username:
continue` shared by the three full-mode loops. -/
def authorSkip (username : Option String) (login : String) : Bool :=
  match username with
  | none => false
  | some u => u != "" && login != u

/-- The function `extract_pr_comments(pr_number, repo, username, review_id)`.
The network calls inside the Python function are replaced by explicit
`FetchedData`; `pr_number` and `repo` are only interpolated into the fetch
commands and so do not influence the result. -/
def extract_pr_comments (pr_number : String) (repo : Option String)
    (username : Option String) (review_id : Option String)
    (d : FetchedData) : List CommentRec :=
  match review_id with
  | some rid =>
    (match d.reviewData with
     | some rd =>
       if optTruthy rd.body then
         [{ ctype := "Specific Review", author := rd.user_login,
            content := rd.body.getD "", state := some rd.state,
            file := none, line := none, diff_side := none,
            review_id := some rid }]
       else []
     | none => []) ++
    d.reviewComments.map (fun c =>
      { ctype := "Inline Comment", author := c.user_login, content := c.body,
        state := none, file := c.path, line := pyOrInt c.line c.original_line,
        diff_side := c.side, review_id := some rid })
  | none =>
    (if !optTruthy username && optTruthy d.prData.title
        && optTruthy d.prData.body then
       [{ ctype := "PR Description", author := d.prData.author_login,
          content := "**" ++ d.prData.title.getD "" ++ "**\n\n"
            ++ d.prData.body.getD "",
          state := none, file := none, line := none, diff_side := none,
          review_id := none }]
     else []) ++
    d.prData.reviews.filterMap (fun r =>
      if authorSkip username r.author_login then none
      else if r.body != "" && pyStrip r.body != "" then
        some { ctype := "Review", author := r.author_login, content := r.body,
               state := some r.state, file := none, line := none,
               diff_side := none, review_id := r.id }
      else none) ++
    d.prData.comments.filterMap (fun c =>
      if authorSkip username c.author_login then none
      else if c.body != "" && pyStrip c.body != "" then
        some { ctype := "General Comment", author := c.author_login,
               content := c.body, state := none, file := none, line := none,
               diff_side := none, review_id := none }
      else none) ++
    d.prData.reviewThreads.foldr (fun t acc =>
      (if !t.comments.isEmpty then
         t.comments.filterMap (fun c =>
           if authorSkip username c.author_login then none
           else
             some { ctype := "Inline Comment", author := c.author_login,
                    content := c.body, state := none, file := t.path,
                    line := t.line, diff_side := t.side, review_id := none })
       else []) ++ acc) []

/-- An empty fetch result (all external calls failed or returned nothing). -/
def emptyFetch : FetchedData :=
  { reviewData := none, reviewComments := [],
    prData := { title := none, body := none, author_login := "",
                reviews := [], comments := [], reviewThreads := [] } }

example : extract_pr_comments "42" (some "a/b") none none emptyFetch = [] := by rfl

example :
    extract_pr_comments "42" (some "a/b") none none
      { emptyFetch with prData :=
        { emptyFetch.prData with
          reviews := [{ author_login := "bob", body := "  ", state := "APPROVED", id := none }],
          comments := [{ author_login := "eve", body := "ok" }] } }
    = [{ ctype := "General Comment", author := "eve", content := "ok",
         state := none, file := none, line := none, diff_side := none,
         review_id := none }] := by rfl

/-- Membership test for the first render bucket of `format_prompt`:
category Review or Specific Review, and a recognized state. -/
def reviewLike (c : CommentRec) : Bool :=
  (c.ctype == "Review" || c.ctype == "Specific Review") &&
    (c.state == some "CHANGES_REQUESTED" || c.state == some "COMMENTED"
      || c.state == some "APPROVED")

/-- First render bucket (`review_comments` in `format_prompt`). -/
def reviewBucket (comments : List CommentRec) : List CommentRec :=
  comments.filter reviewLike

/-- Second render bucket (`inline_comments` in `format_prompt`). -/
def inlineBucket (comments : List CommentRec) : List CommentRec :=
  comments.filter (fun c => c.ctype == "Inline Comment")

/-- Third render bucket (`general_comments` in `format_prompt`). -/
def generalBucket (comments : List CommentRec) : List CommentRec :=
  comments.filter (fun c => c.ctype == "General Comment")

/-- Rendering of one record in the Review Comments section. -/
def renderReviewComment (c : CommentRec) : String :=
  let state_emoji := if c.state == some "CHANGES_REQUESTED" then "üî¥" else "üí¨"
  state_emoji ++ " **@" ++ c.author ++ "** (" ++ c.state.getD "COMMENTED" ++ "):\n"
    ++ (if optTruthy c.review_id then
          "*Review ID: " ++ c.review_id.getD "" ++ "*\n\n"
        else "")
    ++ c.content ++ "\n\n---\n\n"

/-- Rendering of one record in the Inline Code Comments section. -/
def renderInlineComment (c : CommentRec) : String :=
  let file_info := if optTruthy c.file then " in `" ++ c.file.getD "" ++ "`" else ""
  let line_info :=
    if intTruthy c.line then " (line " ++ toString (c.line.getD 0) ++ ")" else ""
  "üìç **@" ++ c.author ++ "**" ++ file_info ++ line_info ++ ":\n"
    ++ c.content ++ "\n\n---\n\n"

/-- Rendering of one record in the General Comments section. -/
def renderGeneralComment (c : CommentRec) : String :=
  "**@" ++ c.author ++ "**:\n" ++ c.content ++ "\n\n---\n\n"

/-- The function `format_prompt(comments, pr_number, repo, username,
review_id)`: render the record sequence into the markdown prompt. -/
def format_prompt (comments : List CommentRec) (pr_number : String)
    (repo : String) (username : Option String) (review_id : Option String) :
    String :=
  let header :=
    "# Code Review Fixes for PR #" ++ pr_number ++ "\n\nRepository: " ++ repo
      ++ "\nPR: https://github.com/" ++ repo ++ "/pull/" ++ pr_number ++ "\n"
      ++ (if optTruthy username then "Reviewer: @" ++ username.getD "" ++ "\n" else "")
      ++ (if optTruthy review_id then
            "Review ID: " ++ review_id.getD "" ++ "\n"
              ++ "Review Link: https://github.com/" ++ repo ++ "/pull/"
              ++ pr_number ++ "#pullrequestreview-" ++ review_id.getD "" ++ "\n"
          else "")
      ++ "\nI need help addressing the following review comments and implementing the requested changes:\n\n"
  let review_comments := reviewBucket comments
  let inline_comments := inlineBucket comments
  let general_comments := generalBucket comments
  let s1 :=
    if !review_comments.isEmpty then
      "## üîç Review Comments\n\n"
        ++ String.join (review_comments.map renderReviewComment)
    else ""
  let s2 :=
    if !inline_comments.isEmpty then
      "## üìù Inline Code Comments\n\n"
        ++ String.join (inline_comments.map renderInlineComment)
    else ""
  let s3 :=
    if !general_comments.isEmpty then
      "## üí¨ General Comments\n\n"
        ++ String.join (general_comments.map renderGeneralComment)
    else ""
  let instructions :=
    "## üéØ What I Need Help With\n\nPlease help me address these review comments systematically:\n\n1. **Analyze** each comment and identify the specific issues raised\n2. **Prioritize** the changes needed (critical bugs ‚Üí improvements ‚Üí style)  \n3. **Implement** specific code changes to address each concern\n4. **Explain** how each change addresses the reviewer\x27s feedback\n\n**Working Mode Instructions:**\n- Use **Edit Mode** for direct file modifications across multiple files\n- Use **@workspace** to understand the full codebase context\n- Start with the most critical issues first\n- Make changes incrementally and explain each one\n\n## Context:\n- PR Link: https://github.com/"
      ++ repo ++ "/pull/" ++ pr_number ++ "\n- Repository: " ++ repo ++ "\n"
  let tail1 :=
    if optTruthy username then
      "- Comments filtered by: @" ++ username.getD "" ++ "\n"
    else ""
  let tail2 :=
    if optTruthy review_id then
      "- Specific review: https://github.com/" ++ repo ++ "/pull/" ++ pr_number
        ++ "#pullrequestreview-" ++ review_id.getD "" ++ "\n"
    else ""
  let closing :=
    "\nFocus on actionable changes I can implement immediately. If any comment is unclear, please ask for clarification on what specific change is needed.\n\nLet\x27s work through these systematically, starting with the most critical issues.\n"
  header ++ s1 ++ s2 ++ s3 ++ instructions ++ tail1 ++ tail2 ++ closing

/-- A JSON value, the result type of `json.loads` (floats are out of scope:
the script never inspects numeric payloads). -/
inductive Json where
  | null
  | bool (b : Bool)
  | num (n : Int)
  | str (s : String)
  | arr (elems : List Json)
  | obj (fields : List (String × Json))

/-- JSON insignificant whitespace. -/
def jsonWs (c : Char) : Bool :=
  c == ' ' || c == '\t' || c == '\n' || c == '\r'

/-- Drop leading JSON whitespace. -/
def skipWs (l : List Char) : List Char :=
  l.dropWhile jsonWs

/-- Numeric value of a digit run. -/
def natOfDigits (l : List Char) : Nat :=
  l.foldl (fun acc c => 10 * acc + (c.toNat - '0'.toNat)) 0

/-- Parse a JSON string body after the opening quote. Escapes are out of
scope for this model: the script never constructs JSON containing them. -/
def parseStrBody : List Char → Option (String × List Char)
  | [] => none
  | c :: r =>
    if c == '"' then some ("", r)
    else if c == '\\' then none
    else (parseStrBody r).map (fun p => (⟨c :: p.1.data⟩, p.2))

/-- Parse an optionally signed integer literal. -/
def parseIntLit (l : List Char) : Option (Int × List Char) :=
  match l with
  | '-' :: r =>
    let ds := r.takeWhile Char.isDigit
    if ds.isEmpty then none
    else some (-(natOfDigits ds : Int), r.drop ds.length)
  | _ =>
    let ds := l.takeWhile Char.isDigit
    if ds.isEmpty then none
    else some ((natOfDigits ds : Int), l.drop ds.length)

mutual

/-- Parse one JSON value, fuelled to ensure termination. -/
def parseVal : Nat → List Char → Option (Json × List Char)
  | 0, _ => none
  | fuel + 1, l =>
    match skipWs l with
    | 'n' :: 'u' :: 'l' :: 'l' :: r => some (.null, r)
    | 't' :: 'r' :: 'u' :: 'e' :: r => some (.bool true, r)
    | 'f' :: 'a' :: 'l' :: 's' :: 'e' :: r => some (.bool false, r)
    | '"' :: r => (parseStrBody r).map (fun p => (.str p.1, p.2))
    | '[' :: r =>
      (match skipWs r with
       | ']' :: r2 => some (.arr [], r2)
       | r2 => (parseElems fuel r2).map (fun p => (.arr p.1, p.2)))
    | '{' :: r =>
      (match skipWs r with
       | '}' :: r2 => some (.obj [], r2)
       | r2 => (parseFields fuel r2).map (fun p => (.obj p.1, p.2)))
    | r => (parseIntLit r).map (fun p => (.num p.1, p.2))

/-- Parse a comma-separated list of values up to the closing bracket. -/
def parseElems : Nat → List Char → Option (List Json × List Char)
  | 0, _ => none
  | fuel + 1, l =>
    match parseVal fuel l with
    | none => none
    | some (v, r) =>
      match skipWs r with
      | ',' :: r2 => (parseElems fuel r2).map (fun p => (v :: p.1, p.2))
      | ']' :: r2 => some ([v], r2)
      | _ => none

/-- Parse a comma-separated list of string-keyed fields up to the brace. -/
def parseFields : Nat → List Char → Option (List (String × Json) × List Char)
  | 0, _ => none
  | fuel + 1, l =>
    match skipWs l with
    | '"' :: r =>
      match parseStrBody r with
      | none => none
      | some (k, r2) =>
        match skipWs r2 with
        | ':' :: r3 =>
          match parseVal fuel r3 with
          | none => none
          | some (v, r4) =>
            match skipWs r4 with
            | ',' :: r5 => (parseFields fuel r5).map (fun p => ((k, v) :: p.1, p.2))
            | '}' :: r5 => some ([(k, v)], r5)
            | _ => none
        | _ => none
    | _ => none

end

/-- Model of `json.loads`: `none` models raising `json.JSONDecodeError`.
Python raises on any input that is not a valid JSON document; this model
covers the JSON grammar the script can encounter (no escape sequences or
floats, which the wrapped CLI queries do not produce in inspected fields). -/
def json_loads (s : String) : Option Json :=
  match parseVal (s.data.length + 1) s.data with
  | some (v, r) => if (skipWs r).isEmpty then some v else none
  | none => none

example : json_loads "\x7b\"a\": 1\x7d" = some (.obj [("a", .num 1)]) := by rfl
example : json_loads "[1, null, \"x\"]" = some (.arr [.num 1, .null, .str "x"]) := by rfl
example : json_loads "not json" = none := by rfl
example : json_loads "" = none := by rfl
example : json_loads "-12" = some (.num (-12)) := by rfl

/-- The result of `subprocess.run(..., capture_output=True, text=True)`. -/
structure CompletedProcess where
  returncode : Int
  stdout : String
  stderr : String
deriving DecidableEq

/-- Outcome of a Python call: a returned value, or a raised exception
carrying the exception class name. -/
inductive PyResult (α : Type) where
  | ret (a : α)
  | raised (exc : String)

/-- The function `run_gh_command(cmd)`: run the command line; when it exits
non-zero, `check=True` raises `CalledProcessError`, which is caught, logged
(the returned list collects the printed lines) and converted to the empty
mapping. Otherwise stdout is JSON-decoded when non-blank; a decode failure
raises and is not caught. -/
def run_gh_command (cmd : String) (res : CompletedProcess) :
    PyResult Json × List String :=
  if res.returncode != 0 then
    (.ret (.obj []), ["Error running command: " ++ cmd, "Error: " ++ res.stderr])
  else if pyStrip res.stdout != "" then
    match json_loads res.stdout with
    | some v => (.ret v, [])
    | none => (.raised "json.decoder.JSONDecodeError", [])
  else
    (.ret (.obj []), [])

/-- The function `run_gh_api(endpoint)`: same contract as `run_gh_command`
specialized to `gh api {endpoint}`, with its own log text. -/
def run_gh_api (endpoint : String) (res : CompletedProcess) :
    PyResult Json × List String :=
  if res.returncode != 0 then
    (.ret (.obj []), ["Error calling API: " ++ endpoint, "Error: " ++ res.stderr])
  else if pyStrip res.stdout != "" then
    match json_loads res.stdout with
    | some v => (.ret v, [])
    | none => (.raised "json.decoder.JSONDecodeError", [])
  else
    (.ret (.obj []), [])

example : run_gh_command "gh pr view 1" ⟨1, "", "boom"⟩
    = (.ret (.obj []), ["Error running command: gh pr view 1", "Error: boom"]) := by rfl
example : run_gh_command "gh pr view 1" ⟨0, "  ", ""⟩ = (.ret (.obj []), []) := by rfl
example : run_gh_command "gh pr view 1" ⟨0, "not json", ""⟩
    = (.raised "json.decoder.JSONDecodeError", []) := by rfl

/-- The command line as typed by the user: the positional argument, the
option values, and which store-true flags were passed. -/
structure Cmdline where
  input : String
  user : Option String
  repo : Option String
  output : Option String
  copyPassed : Bool
  openPassed : Bool
  noCopyPassed : Bool
  chatPassed : Bool
deriving DecidableEq

/-- The `args` namespace produced by `argparse`. The Python field `open` is
rendered as `openFlag` (`open` is a Lean keyword). -/
structure CliArgs where
  input : String
  user : Option String
  repo : Option String
  output : Option String
  copy : Bool
  openFlag : Bool
  no_copy : Bool
  chat : Bool
deriving DecidableEq

/-- Model of `parser.parse_args()`: `--copy`, `--no-copy` and `--chat` are
`store_true` flags defaulting to `False`; `--open` is declared
`action="store_true", default=True`, so it is `True` whether or not the flag
is passed. -/
def parse_args (c : Cmdline) : CliArgs :=
  { input := c.input, user := c.user, repo := c.repo, output := c.output,
    copy := c.copyPassed,
    openFlag := if c.openPassed then true else true,
    no_copy := c.noCopyPassed,
    chat := c.chatPassed }

/-- The external world as seen by `main`: outcomes of the subprocess calls,
the local file system, and optional dependencies. -/
structure Env where
  /-- Result of `gh repo view --json nameWithOwner`: the `nameWithOwner`
  value on success, `none` when the call (or its JSON decoding) fails. -/
  ghRepoView : Option String
  /-- Data behind the fetch calls made by `extract_pr_comments`. -/
  fetched : FetchedData
  /-- stdout of `gh pr diff --name-only` on success, `none` when it raises. -/
  ghPrDiff : Option String
  /-- Which paths exist in the working directory (`Path(file).exists()`). -/
  fileExists : String → Bool
  /-- Whether `import pyperclip` succeeds. -/
  pyperclip : Bool
  /-- Whether invoking the `code` executable succeeds; `False` models
  `FileNotFoundError`/`CalledProcessError` raised by the first invocation. -/
  codeOk : Bool

/-- An observable side effect of `main` (print statements are not traced:
no claim concerns them). -/
inductive Ev where
  | write (path : String) (content : String)
  | clipboard (content : String)
  | runCode (cmdArgs : List String)
  | chatFocus
deriving DecidableEq

/-- Exit status and side-effect trace of one run of `main`. -/
structure MainResult where
  exitCode : Nat
  events : List Ev
deriving DecidableEq

/-- The `--copy`/`--no-copy` clipboard step: `pyperclip.copy` when the
module import succeeds, otherwise only an install hint is printed. -/
def clipboardEvents (env : Env) (prompt : String) : List Ev :=
  if env.pyperclip then [.clipboard prompt] else []

/-- The `.copilot-instructions.md` content written by the editor branch. -/
def copilotInstructions (pr_number repo : String) (all_files : List String) :
    String :=
  "# PR Review Context\n\nThis workspace contains files from PR #" ++ pr_number
    ++ " in " ++ repo ++ ".\n\n## Files to Review:\n"
    ++ (if !all_files.isEmpty then
          String.intercalate "\n" (all_files.map (fun f => "- " ++ f))
        else "- No files found in current directory")
    ++ "\n\n## Next Steps:\n1. The prompt has been copied to your clipboard\n2. Open Copilot Chat (Ctrl+Alt+I or Cmd+Ctrl+I)\n3. Paste the prompt to start the code review process\n4. Use @workspace to give Copilot full context of the codebase\n\n## Tip:\nUse \"Edit Mode\" in Copilot Chat for direct file modifications across multiple files.\n"

/-- The `if args.open:` branch of `main`: list the PR-touched files that
exist locally, open the editor, auto-copy unless suppressed, optionally
focus the chat panel, and write the auxiliary context file. A failed editor
invocation aborts the whole branch (the exception is caught outside it). -/
def openEvents (args : CliArgs) (env : Env) (pr_number repo output_file
    prompt : String) : List Ev :=
  let all_files :=
    match env.ghPrDiff with
    | none => []
    | some out =>
      (((pyStrip out).splitOn "\n").map pyStrip |>.filter (fun f => f != ""))
        |>.filter env.fileExists
  let vscode_files := output_file :: all_files
  if env.codeOk then
    (if !all_files.isEmpty then [Ev.runCode ("." :: vscode_files)]
     else [Ev.runCode [output_file]])
    ++ (if !args.no_copy then clipboardEvents env prompt else [])
    ++ (if args.chat then [Ev.chatFocus] else [])
    ++ [Ev.write ".copilot-instructions.md"
          (copilotInstructions pr_number repo all_files)]
  else []

/-- Continuation of `main` after the repository has been resolved: extract,
bail out (exit 1) on an empty result, format, derive the output filename,
write the file, and run the optional clipboard and editor steps. -/
def mainCont (args : CliArgs) (pr_number : String) (review_id : Option String)
    (repo : String) (env : Env) : MainResult :=
  let comments := extract_pr_comments pr_number (some repo) args.user review_id
    env.fetched
  if comments.isEmpty then
    { exitCode := 1, events := [] }
  else
    let prompt := format_prompt comments pr_number repo args.user review_id
    let base :=
      if optTruthy args.output then args.output.getD ""
      else "copilot_prompt_pr_" ++ pr_number
    let f1 := if optTruthy args.user then base ++ "_" ++ args.user.getD "" else base
    let f2 :=
      if optTruthy review_id then f1 ++ "_review_" ++ review_id.getD "" else f1
    let output_file := f2 ++ ".md"
    { exitCode := 0,
      events :=
        [Ev.write output_file prompt]
        ++ (if args.copy then clipboardEvents env prompt else [])
        ++ (if args.openFlag then
              openEvents args env pr_number repo output_file prompt
            else []) }

namespace Script

/-- The function `main()`: parse the command line and the PR identifier,
resolve the repository (parsed value, else `--repo`, else `gh repo view`,
else exit 1), then continue with `mainCont`. A `ValueError` from
`parse_pr_url` is caught at the bottom and turns into exit 1. -/
def main (c : Cmdline) (env : Env) : MainResult :=
  let args := parse_args c
  match parse_pr_url args.input with
  | .error _ => { exitCode := 1, events := [] }
  | .ok (parsed_repo, pr_number, review_id) =>
    let repo0 := if optTruthy parsed_repo then parsed_repo else args.repo
    if !optTruthy repo0 then
      match env.ghRepoView with
      | none => { exitCode := 1, events := [] }
      | some r => mainCont args pr_number review_id r env
    else
      mainCont args pr_number review_id (repo0.getD "") env

end Script

/-- A quiet environment: every external call fails or returns nothing. -/
def emptyEnv : Env :=
  { ghRepoView := none, fetched := emptyFetch, ghPrDiff := none,
    fileExists := fun _ => false, pyperclip := false, codeOk := false }

example :
    Script.main
      { input := "937", user := none, repo := none, output := none,
        copyPassed := false, openPassed := false, noCopyPassed := false,
        chatPassed := false } emptyEnv
    = { exitCode := 1, events := [] } := by rfl

example :
    Script.main
      { input := "937", user := none, repo := some "acme/widgets",
        output := none, copyPassed := false, openPassed := false,
        noCopyPassed := false, chatPassed := false } emptyEnv
    = { exitCode := 1, events := [] } := by rfl

/-! ## Helper lemmas -/

theorem mem_foldr_append {α β : Type} (f : β → List α) (l : List β) (c : α) :
    c ∈ l.foldr (fun t acc => f t ++ acc) [] ↔ ∃ t ∈ l, c ∈ f t := by
  induction l with
  | nil => simp
  | cons t ts ih => simp [ih]

theorem pyStrip_ne_empty_of_mem {s : String} {c : Char} (hc : c ∈ s.data)
    (hw : c.isWhitespace = false) : pyStrip s ≠ "" := by
  intro h
  have hdata : (((s.data.dropWhile Char.isWhitespace).reverse.dropWhile
      Char.isWhitespace).reverse) = [] := congrArg String.data h
  rw [List.reverse_eq_nil_iff, List.dropWhile_eq_nil_iff] at hdata
  have hall : ∀ x ∈ s.data.dropWhile Char.isWhitespace, x.isWhitespace := by
    intro x hx
    exact hdata x (List.mem_reverse.mpr hx)
  rw [← List.takeWhile_append_dropWhile (p := Char.isWhitespace) (l := s.data)]
    at hc
  rcases List.mem_append.mp hc with h1 | h2
  · exact absurd (List.mem_takeWhile_imp h1) (by simp [hw])
  · exact absurd (hall c h2) (by simp [hw])

theorem pyStrip_desc_content (t b : String) :
    pyStrip ("**" ++ t ++ "**\n\n" ++ b) ≠ "" := by
  apply pyStrip_ne_empty_of_mem (c := '*')
  · simp [String.data_append]
  · decide

/-! ## C1: blank-content invariant -/

/-- Full-mode fetch result whose only payload is one review thread holding a
single comment with an empty body. -/
def c1Fetch : FetchedData :=
  { reviewData := none, reviewComments := [],
    prData := { title := none, body := none, author_login := "",
                reviews := [], comments := [],
                reviewThreads :=
                  [{ comments := [{ author_login := "bob", body := "" }],
                     path := some "f.py", line := some 3,
                     side := some "RIGHT" }] } }

/-- C1 counterexample: in full mode the extractor emits an Inline Comment
record whose content is the empty string (blank after stripping): bodies of
review-thread comments are never filtered for blankness. -/
theorem c1_blank_inline_emitted :
    extract_pr_comments "42" (some "a/b") none none c1Fetch
      = [{ ctype := "Inline Comment", author := "bob", content := "",
           state := none, file := some "f.py", line := some 3,
           diff_side := some "RIGHT", review_id := none }]
    ∧ pyStrip "" = "" := ⟨rfl, rfl⟩

/-- C1, amended: Review, General Comment and PR Description records always
have non-blank content (after stripping); Specific Review records have
non-empty but possibly whitespace-only content; Inline Comment records are
not filtered and may be blank. -/
theorem c1_content_blankness_amended (pn : String)
    (repo username review_id : Option String) (d : FetchedData) :
    ∀ c ∈ extract_pr_comments pn repo username review_id d,
      ((c.ctype = "Review" ∨ c.ctype = "General Comment"
          ∨ c.ctype = "PR Description") → pyStrip c.content ≠ "")
      ∧ (c.ctype = "Specific Review" → c.content ≠ "") := by
  intro c hc
  match hrid : review_id with
  | some rid =>
    unfold extract_pr_comments at hc
    rcases List.mem_append.mp hc with h1 | h2
    · match hrd : d.reviewData with
      | none => rw [hrd] at h1; simp at h1
      | some rd =>
        rw [hrd] at h1
        by_cases hb : optTruthy rd.body
        · simp [hb] at h1
          subst h1
          refine ⟨by simp, fun _ => ?_⟩
          match hrb : rd.body with
          | none => rw [hrb] at hb; simp [optTruthy] at hb
          | some b =>
            rw [hrb] at hb
            simpa [optTruthy] using hb
        · simp [hb] at h1
    · simp only [List.mem_map] at h2
      obtain ⟨x, _, hx⟩ := h2
      subst hx
      exact ⟨by simp, by simp⟩
  | none =>
    unfold extract_pr_comments at hc
    rcases List.mem_append.mp hc with h1 | hrest
    · rcases List.mem_append.mp h1 with h1 | hgen
      · rcases List.mem_append.mp h1 with hdesc | hrev
        · by_cases hguard : (!optTruthy username && optTruthy d.prData.title
              && optTruthy d.prData.body) = true
          · simp only [hguard, if_true, List.mem_singleton] at hdesc
            subst hdesc
            exact ⟨fun _ => pyStrip_desc_content _ _, by simp⟩
          · simp only [Bool.not_eq_true] at hguard
            simp [hguard] at hdesc
        · simp only [List.mem_filterMap] at hrev
          obtain ⟨r, _, hr⟩ := hrev
          by_cases hskip : authorSkip username r.author_login
          · simp [hskip] at hr
          · by_cases hbody : (r.body != "" && pyStrip r.body != "") = true
            · simp only [hskip, hbody, if_true, Bool.false_eq_true, if_false,
                Option.some_inj] at hr
              subst hr
              refine ⟨fun _ => ?_, by simp⟩
              have := (Bool.and_eq_true _ _).mp hbody
              simpa using this.2
            · simp [hskip, hbody] at hr
      · simp only [List.mem_filterMap] at hgen
        obtain ⟨g, _, hg⟩ := hgen
        by_cases hskip : authorSkip username g.author_login
        · simp [hskip] at hg
        · by_cases hbody : (g.body != "" && pyStrip g.body != "") = true
          · simp only [hskip, hbody, if_true, Bool.false_eq_true, if_false,
              Option.some_inj] at hg
            subst hg
            refine ⟨fun _ => ?_, by simp⟩
            have := (Bool.and_eq_true _ _).mp hbody
            simpa using this.2
          · simp [hskip, hbody] at hg
    · rw [mem_foldr_append] at hrest
      obtain ⟨t, _, ht⟩ := hrest
      by_cases hne : t.comments.isEmpty
      · simp [hne] at ht
      · simp only [hne, Bool.not_false, if_true, Bool.false_eq_true,
          if_false, List.mem_filterMap] at ht
        obtain ⟨x, _, hx⟩ := ht
        by_cases hskip : authorSkip username x.author_login
        · simp [hskip] at hx
        · simp only [hskip, Bool.false_eq_true, if_false,
            Option.some_inj] at hx
          subst hx
          exact ⟨by simp, by simp⟩

/-- Fetch result with a single non-blank general comment, used to
instantiate the amended C1 theorem. -/
def c1WitFetch : FetchedData :=
  { emptyFetch with prData :=
    { emptyFetch.prData with comments := [{ author_login := "eve", body := "ok" }] } }

/-- Closed instance of the amended C1 theorem at a concrete record. -/
theorem c1_content_blankness_amended_witness : pyStrip "ok" ≠ "" :=
  (c1_content_blankness_amended "1" none none none c1WitFetch
      { ctype := "General Comment", author := "eve", content := "ok",
        state := none, file := none, line := none, diff_side := none,
        review_id := none }
      (by decide)).1 (Or.inr (Or.inl rfl))

/-! ## C2, C3: author filter behaviour in the two modes -/

/-- C2: with an author filter active (a non-empty username) and no review
id, every emitted record has that author and no PR Description record is
emitted. -/
theorem c2_author_filter_full_mode (pn : String) (repo : Option String)
    (u : String) (hu : u ≠ "") (d : FetchedData) :
    ∀ c ∈ extract_pr_comments pn repo (some u) none d,
      c.author = u ∧ c.ctype ≠ "PR Description" := by
  intro c hc
  unfold extract_pr_comments at hc
  have htr : optTruthy (some u) = true := by simpa [optTruthy] using hu
  rcases List.mem_append.mp hc with h1 | hthread
  · rcases List.mem_append.mp h1 with h1 | hgen
    · rcases List.mem_append.mp h1 with hdesc | hrev
      · simp [htr] at hdesc
      · simp only [List.mem_filterMap] at hrev
        obtain ⟨r, _, hr⟩ := hrev
        by_cases hskip : authorSkip (some u) r.author_login
        · simp [hskip] at hr
        · have hlogin : r.author_login = u := by
            simp only [authorSkip, Bool.and_eq_true, bne_iff_ne, not_and,
              ne_eq, not_not] at hskip
            exact hskip hu
          by_cases hbody : (r.body != "" && pyStrip r.body != "") = true
          · simp only [hskip, hbody, if_true, Bool.false_eq_true, if_false,
              Option.some_inj] at hr
            subst hr
            exact ⟨hlogin, by simp⟩
          · simp [hskip, hbody] at hr
    · simp only [List.mem_filterMap] at hgen
      obtain ⟨g, _, hg⟩ := hgen
      by_cases hskip : authorSkip (some u) g.author_login
      · simp [hskip] at hg
      · have hlogin : g.author_login = u := by
          simp only [authorSkip, Bool.and_eq_true, bne_iff_ne, not_and,
            ne_eq, not_not] at hskip
          exact hskip hu
        by_cases hbody : (g.body != "" && pyStrip g.body != "") = true
        · simp only [hskip, hbody, if_true, Bool.false_eq_true, if_false,
            Option.some_inj] at hg
          subst hg
          exact ⟨hlogin, by simp⟩
        · simp [hskip, hbody] at hg
  · rw [mem_foldr_append] at hthread
    obtain ⟨t, _, ht⟩ := hthread
    by_cases hne : t.comments.isEmpty
    · simp [hne] at ht
    · simp only [hne, Bool.not_false, if_true, Bool.false_eq_true, if_false,
        List.mem_filterMap] at ht
      obtain ⟨x, _, hx⟩ := ht
      by_cases hskip : authorSkip (some u) x.author_login
      · simp [hskip] at hx
      · have hlogin : x.author_login = u := by
          simp only [authorSkip, Bool.and_eq_true, bne_iff_ne, not_and,
            ne_eq, not_not] at hskip
          exact hskip hu
        simp only [hskip, Bool.false_eq_true, if_false, Option.some_inj] at hx
        subst hx
        exact ⟨hlogin, by simp⟩

/-- Fetch result with one review by alice, used to instantiate C2. -/
def c2WitFetch : FetchedData :=
  { emptyFetch with prData :=
    { emptyFetch.prData with
      reviews := [{ author_login := "alice", body := "fix this",
                    state := "CHANGES_REQUESTED", id := some "9" }] } }

/-- Closed instance of C2 at a concrete record. -/
theorem c2_author_filter_full_mode_witness :
    CommentRec.author
      { ctype := "Review", author := "alice", content := "fix this",
        state := some "CHANGES_REQUESTED", file := none, line := none,
        diff_side := none, review_id := some "9" } = "alice"
    ∧ CommentRec.ctype
      { ctype := "Review", author := "alice", content := "fix this",
        state := some "CHANGES_REQUESTED", file := none, line := none,
        diff_side := none, review_id := some "9" } ≠ "PR Description" :=
  c2_author_filter_full_mode "1" none "alice" (by decide) c2WitFetch
    { ctype := "Review", author := "alice", content := "fix this",
      state := some "CHANGES_REQUESTED", file := none, line := none,
      diff_side := none, review_id := some "9" } (by decide)

/-! ## C3: the review-id mode ignores the author filter -/

/-- C4 counterexample: when the command exits zero but its stdout is
non-blank and not valid JSON, `json.loads` raises `JSONDecodeError`, which
neither fetch wrapper catches — so the operations can raise. -/
theorem c4_fetch_raises_on_bad_json :
    (run_gh_command "gh pr view 1 --json title" ⟨0, "not json", ""⟩).1
      = PyResult.raised "json.decoder.JSONDecodeError"
    ∧ (run_gh_api "/repos/a/b/pulls/1" ⟨0, "not json", ""⟩).1
      = PyResult.raised "json.decoder.JSONDecodeError" := ⟨rfl, rfl⟩

/-- C4, amended: on non-zero exit both wrappers log the command/endpoint
and stderr and return the empty mapping; on zero exit with blank stdout
they return the empty mapping; on zero exit with non-blank, decodable
stdout they return the parsed JSON value — but undecodable non-blank
stdout raises. -/
theorem c4_fetch_amended (cmd : String) (res : CompletedProcess) :
    (res.returncode ≠ 0 →
      run_gh_command cmd res
        = (.ret (.obj []), ["Error running command: " ++ cmd,
                            "Error: " ++ res.stderr])
      ∧ run_gh_api cmd res
        = (.ret (.obj []), ["Error calling API: " ++ cmd,
                            "Error: " ++ res.stderr]))
    ∧ (res.returncode = 0 → pyStrip res.stdout = "" →
      run_gh_command cmd res = (.ret (.obj []), [])
      ∧ run_gh_api cmd res = (.ret (.obj []), []))
    ∧ (∀ v : Json, res.returncode = 0 → pyStrip res.stdout ≠ "" →
      json_loads res.stdout = some v →
      run_gh_command cmd res = (.ret v, [])
      ∧ run_gh_api cmd res = (.ret v, [])) := by
  refine ⟨fun h => ?_, fun h hs => ?_, fun v h hs hj => ?_⟩
  · have hb : (res.returncode != 0) = true := bne_iff_ne.mpr h
    constructor <;> simp [run_gh_command, run_gh_api, hb]
  · have hb : (res.returncode != 0) = false := by simp [h]
    have hs2 : (pyStrip res.stdout != "") = false := by simp [hs]
    constructor <;> simp [run_gh_command, run_gh_api, hb, hs2]
  · have hb : (res.returncode != 0) = false := by simp [h]
    have hs2 : (pyStrip res.stdout != "") = true := by simpa using hs
    constructor <;> simp [run_gh_command, run_gh_api, hb, hs2, hj]

/-- Closed instance of the amended C4 theorem for both wrappers. -/
theorem c4_fetch_amended_witness :
    run_gh_command "gh x" ⟨1, "", "boom"⟩
      = (.ret (.obj []), ["Error running command: gh x", "Error: boom"])
    ∧ run_gh_api "/repos/x" ⟨0, "null", ""⟩ = (.ret .null, []) :=
  ⟨((c4_fetch_amended "gh x" ⟨1, "", "boom"⟩).1 (by decide)).1,
   ((c4_fetch_amended "/repos/x" ⟨0, "null", ""⟩).2.2 .null rfl
      (by decide) rfl).2⟩

/-! ## C5: records with absent or unrecognized state -/

/-- A concrete General Comment record with no state key. -/
def c5Rec : CommentRec :=
  { ctype := "General Comment", author := "dana", content := "please fix",
    state := none, file := none, line := none, diff_side := none,
    review_id := none }

set_option maxRecDepth 8192 in
/-- C5 counterexample: a record whose state is absent is NOT excluded from
every render bucket — a stateless General Comment lands in the general
bucket and changes the rendered output. The state check only gates the
review-like bucket. -/
theorem c5_stateless_general_rendered :
    c5Rec.state = none
    ∧ c5Rec ∈ generalBucket [c5Rec]
    ∧ format_prompt [c5Rec] "7" "a/b" none none
        ≠ format_prompt [] "7" "a/b" none none := by
  refine ⟨rfl, by decide, by decide⟩

/-- A record of category Review or Specific Review whose state is absent or
not one of the three recognized values. -/
def badStateReview (c : CommentRec) : Bool :=
  (c.ctype == "Review" || c.ctype == "Specific Review")
    && !(c.state == some "CHANGES_REQUESTED" || c.state == some "COMMENTED"
      || c.state == some "APPROVED")

theorem badStateReview_false_of_reviewLike {c : CommentRec}
    (h : reviewLike c = true) : badStateReview c = false := by
  rw [reviewLike, Bool.and_eq_true] at h
  simp [badStateReview, h.1, h.2]

theorem badStateReview_false_of_ctype {c : CommentRec} {t : String}
    (hc : c.ctype = t) (h1 : (t == "Review") = false)
    (h2 : (t == "Specific Review") = false) : badStateReview c = false := by
  simp [badStateReview, hc, h1, h2]

theorem reviewBucket_filter_not_bad (comments : List CommentRec) :
    reviewBucket (comments.filter (fun c => !badStateReview c))
      = reviewBucket comments := by
  rw [reviewBucket, reviewBucket, List.filter_filter]
  apply List.filter_congr
  intro x _
  by_cases h : reviewLike x = true
  · simp [h, badStateReview_false_of_reviewLike h]
  · simp [Bool.not_eq_true] at h
    simp [h]

theorem inlineBucket_filter_not_bad (comments : List CommentRec) :
    inlineBucket (comments.filter (fun c => !badStateReview c))
      = inlineBucket comments := by
  rw [inlineBucket, inlineBucket, List.filter_filter]
  apply List.filter_congr
  intro x _
  by_cases h : (x.ctype == "Inline Comment") = true
  · have hc : x.ctype = "Inline Comment" := by simpa using h
    simp [h, badStateReview_false_of_ctype hc (by decide) (by decide)]
  · simp [Bool.not_eq_true] at h
    simp [h]

theorem generalBucket_filter_not_bad (comments : List CommentRec) :
    generalBucket (comments.filter (fun c => !badStateReview c))
      = generalBucket comments := by
  rw [generalBucket, generalBucket, List.filter_filter]
  apply List.filter_congr
  intro x _
  by_cases h : (x.ctype == "General Comment") = true
  · have hc : x.ctype = "General Comment" := by simpa using h
    simp [h, badStateReview_false_of_ctype hc (by decide) (by decide)]
  · simp [Bool.not_eq_true] at h
    simp [h]

/-- C5, amended: a record of category Review or Specific Review whose state
is absent or unrecognized is excluded from all three render buckets, and
deleting all such records leaves the rendered markdown unchanged; records
of other categories are unaffected by the state check. -/
theorem c5_bad_state_reviews_excluded (comments : List CommentRec)
    (pn repo : String) (u rid : Option String) :
    (∀ c ∈ comments, badStateReview c = true →
      c ∉ reviewBucket comments ∧ c ∉ inlineBucket comments
        ∧ c ∉ generalBucket comments)
    ∧ format_prompt (comments.filter (fun c => !badStateReview c)) pn repo u rid
        = format_prompt comments pn repo u rid := by
  constructor
  · intro c _ hbad
    have hcat : (c.ctype == "Review" || c.ctype == "Specific Review") = true :=
      ((Bool.and_eq_true _ _).mp hbad).1
    refine ⟨fun hm => ?_, fun hm => ?_, fun hm => ?_⟩
    · have hlike : reviewLike c = true := (List.mem_filter.mp hm).2
      rw [badStateReview_false_of_reviewLike hlike] at hbad
      exact Bool.false_ne_true hbad
    · have hin : (c.ctype == "Inline Comment") = true :=
        (List.mem_filter.mp hm).2
      have h1 : c.ctype = "Inline Comment" := by simpa using hin
      rw [h1] at hcat
      simp at hcat
    · have hin : (c.ctype == "General Comment") = true :=
        (List.mem_filter.mp hm).2
      have h1 : c.ctype = "General Comment" := by simpa using hin
      rw [h1] at hcat
      simp at hcat
  · simp only [format_prompt, reviewBucket_filter_not_bad,
      inlineBucket_filter_not_bad, generalBucket_filter_not_bad]

/-- A concrete Review record with the unrecognized state PENDING. -/
def c5BadRec : CommentRec :=
  { ctype := "Review", author := "carl", content := "wip",
    state := some "PENDING", file := none, line := none, diff_side := none,
    review_id := none }

/-- Closed instance of the amended C5 theorem. -/
theorem c5_bad_state_reviews_excluded_witness :
    (c5BadRec ∉ reviewBucket [c5BadRec] ∧ c5BadRec ∉ inlineBucket [c5BadRec]
      ∧ c5BadRec ∉ generalBucket [c5BadRec])
    ∧ format_prompt (List.filter (fun c => !badStateReview c) [c5BadRec])
        "7" "a/b" none none
      = format_prompt [c5BadRec] "7" "a/b" none none :=
  ⟨(c5_bad_state_reviews_excluded [c5BadRec] "7" "a/b" none none).1 c5BadRec
      (by decide) (by decide),
   (c5_bad_state_reviews_excluded [c5BadRec] "7" "a/b" none none).2⟩

/-! ## C8, C9: orchestrator behaviour -/

theorem mainCont_empty (args : CliArgs) (pn : String) (rid : Option String)
    (repo : String) (env : Env)
    (h : extract_pr_comments pn (some repo) args.user rid env.fetched = []) :
    mainCont args pn rid repo env = { exitCode := 1, events := [] } := by
  unfold mainCont
  rw [h]
  rfl

/-- C8: when the identifier parses but extraction yields no records
(whatever repository is resolved), `main` exits with code 1 and performs no
side effects at all — in particular no file is written. -/
theorem c8_empty_comments_exit1 (c : Cmdline) (env : Env)
    (pRepo : Option String) (pn : String) (rid : Option String)
    (hparse : parse_pr_url c.input = .ok (pRepo, pn, rid))
    (hempty : ∀ repo : String,
      extract_pr_comments pn (some repo) c.user rid env.fetched = []) :
    Script.main c env = { exitCode := 1, events := [] } := by
  have hp2 : parse_pr_url (parse_args c).input = .ok (pRepo, pn, rid) := hparse
  have huser : (parse_args c).user = c.user := rfl
  unfold Script.main
  simp only [hp2]
  by_cases h0 : optTruthy (if optTruthy pRepo then pRepo else (parse_args c).repo)
  · simp only [h0, Bool.not_true, Bool.false_eq_true, if_false]
    exact mainCont_empty _ _ _ _ _ (huser ▸ hempty _)
  · simp only [Bool.not_eq_true] at h0
    simp only [h0, Bool.not_false, if_true]
    match henv : env.ghRepoView with
    | none => rfl
    | some r => exact mainCont_empty _ _ _ _ _ (huser ▸ hempty r)

/-- Closed instance of C8: empty fetch, repository given explicitly. -/
theorem c8_empty_comments_exit1_witness :
    Script.main
      { input := "937", user := none, repo := some "acme/widgets",
        output := none, copyPassed := false, openPassed := false,
        noCopyPassed := false, chatPassed := false } emptyEnv
    = { exitCode := 1, events := [] } :=
  c8_empty_comments_exit1 _ emptyEnv none "937" none rfl (fun _ => rfl)

/-- Command line for C9: the user does NOT pass `--open`. -/
def c9Cmd : Cmdline :=
  { input := "https://github.com/a/b/pull/7", user := none, repo := none,
    output := none, copyPassed := false, openPassed := false,
    noCopyPassed := false, chatPassed := false }

/-- Environment for C9: one general comment, a working editor binary. -/
def c9Env : Env :=
  { ghRepoView := none,
    fetched :=
      { emptyFetch with prData :=
        { emptyFetch.prData with
          comments := [{ author_login := "eve", body := "ok" }] } },
    ghPrDiff := none, fileExists := fun _ => false, pyperclip := false,
    codeOk := true }

set_option maxRecDepth 8192 in
/-- C9 (code bug): `--open` is declared `action="store_true"` with
`default=True`, so `args.open` is `True` on every invocation — no flag
combination can disable the editor-open step, and the `else` branch of
`if args.open:` is unreachable. Concretely, an invocation without `--open`
still runs the editor step. -/
theorem c9_open_flag_always_true :
    (∀ c : Cmdline, (parse_args c).openFlag = true)
    ∧ Ev.runCode ["copilot_prompt_pr_7.md"] ∈ (Script.main c9Cmd c9Env).events := by
  refine ⟨fun c => by simp [parse_args], ?_⟩
  decide

/-! ## Regex-model lemmas for the identifier parser claims -/

theorem startsWith_append (ps t : List Char) : startsWith ps (ps ++ t) = true := by
  induction ps with
  | nil => rfl
  | cons p ps ih => simp [startsWith, ih]

theorem eq_append_of_startsWith {ps l : List Char}
    (h : startsWith ps l = true) : l = ps ++ l.drop ps.length := by
  induction ps generalizing l with
  | nil => simp
  | cons p ps ih =>
    cases l with
    | nil => simp [startsWith] at h
    | cons c cs =>
      simp only [startsWith, Bool.and_eq_true, beq_iff_eq] at h
      obtain ⟨rfl, h2⟩ := h
      simpa [List.drop_succ_cons] using ih h2

theorem takeWhile_append_cons {p : Char → Bool} (xs : List Char) (y : Char)
    (ys : List Char) (hxs : ∀ a ∈ xs, p a = true) (hy : p y = false) :
    (xs ++ y :: ys).takeWhile p = xs ∧ (xs ++ y :: ys).dropWhile p = y :: ys := by
  induction xs with
  | nil => simp [List.takeWhile_cons, List.dropWhile_cons, hy]
  | cons x xs ih =>
    have hx : p x = true := hxs x (by simp)
    have ih2 := ih (fun a ha => hxs a (by simp [ha]))
    simp [List.takeWhile_cons, List.dropWhile_cons, hx, ih2.1, ih2.2]

theorem isEmpty_false_of_ne_nil {l : List Char} (h : l ≠ []) :
    l.isEmpty = false := by
  cases l with
  | nil => exact absurd rfl h
  | cons a as => rfl

theorem matchReviewAt_append_digits (rid : List Char) (h1 : rid ≠ [])
    (h2 : ∀ a ∈ rid, a.isDigit = true) :
    matchReviewAt (reviewHead ++ rid) = some ⟨rid⟩ := by
  unfold matchReviewAt
  rw [startsWith_append]
  rw [if_pos rfl]
  rw [List.drop_left]
  rw [List.takeWhile_eq_self_iff.mpr (by simpa using h2)]
  simp [isEmpty_false_of_ne_nil h1]

theorem matchReviewAt_hash (l : List Char) : matchReviewAt ('#' :: l) = none := by
  have h : startsWith reviewHead ('#' :: l) = false := rfl
  unfold matchReviewAt
  rw [h]
  rfl

theorem scanReview_cons_eq (c : Char) (cs : List Char) :
    scanReview (c :: cs)
      = match matchReviewAt (c :: cs) with
        | some r => some r
        | none => scanReview cs := rfl

theorem scanReview_of_match {l : List Char} {r : String}
    (h : matchReviewAt l = some r) : scanReview l = some r := by
  cases l with
  | nil =>
    rw [show matchReviewAt [] = none from rfl] at h
    cases h
  | cons c cs =>
    rw [scanReview_cons_eq, h]

theorem scanReview_cons_none {c : Char} {cs : List Char}
    (h : matchReviewAt (c :: cs) = none) :
    scanReview (c :: cs) = scanReview cs := by
  rw [scanReview_cons_eq, h]

/-- The literal `pullrequestreview-` occurs somewhere in `l` as a
contiguous substring: there is a position where it starts. -/
def hasMarker (l : List Char) : Prop :=
  ∃ i, startsWith reviewHead (l.drop i) = true

theorem length_le_of_startsWith {pat l : List Char}
    (h : startsWith pat l = true) : pat.length ≤ l.length := by
  induction pat generalizing l with
  | nil => simp
  | cons p ps ih =>
    cases l with
    | nil => simp [startsWith] at h
    | cons c cs =>
      simp only [startsWith, Bool.and_eq_true] at h
      simp only [List.length_cons]
      exact Nat.succ_le_succ (ih h.2)

theorem startsWith_of_append {pat u v : List Char}
    (h : startsWith pat (u ++ v) = true) (hlen : pat.length ≤ u.length) :
    startsWith pat u = true := by
  induction pat generalizing u with
  | nil => rfl
  | cons p ps ih =>
    cases u with
    | nil => simp at hlen
    | cons a as =>
      rw [List.cons_append] at h
      simp only [startsWith, Bool.and_eq_true] at h ⊢
      refine ⟨h.1, ih h.2 ?_⟩
      simp only [List.length_cons] at hlen
      omega

theorem hasMarker_length {l : List Char} (h : hasMarker l) :
    reviewHead.length ≤ l.length := by
  obtain ⟨i, hi⟩ := h
  have h2 := length_le_of_startsWith hi
  rw [List.length_drop] at h2
  exact Nat.le_trans h2 (Nat.sub_le _ _)

theorem hasMarker_of_cons {c : Char} {cs : List Char} (h : hasMarker cs) :
    hasMarker (c :: cs) := by
  obtain ⟨i, hi⟩ := h
  exact ⟨i + 1, by simpa using hi⟩

theorem drop_append_of_le {α : Type} {i : Nat} (xs ys : List α)
    (h : i ≤ xs.length) : (xs ++ ys).drop i = xs.drop i ++ ys := by
  induction xs generalizing i with
  | nil =>
    simp only [List.length_nil, Nat.le_zero] at h
    subst h
    simp
  | cons a as ih =>
    cases i with
    | zero => simp
    | succ j =>
      simp only [List.cons_append, List.drop_succ_cons]
      refine ih ?_
      simp only [List.length_cons] at h
      omega

theorem drop_append_gt {α : Type} {i : Nat} (xs ys : List α)
    (h : xs.length < i) : (xs ++ ys).drop i = ys.drop (i - xs.length) := by
  conv_lhs => rw [show i = xs.length + (i - xs.length) from by omega]
  rw [← List.drop_drop, List.drop_left]

theorem hasMarker_append_cons {xs ys : List Char} {c : Char}
    (hc : c ∉ reviewHead) (h : hasMarker (xs ++ c :: ys)) :
    hasMarker xs ∨ hasMarker ys := by
  obtain ⟨i, hi⟩ := h
  by_cases hile : i ≤ xs.length
  · rw [drop_append_of_le xs (c :: ys) hile] at hi
    by_cases hlen : reviewHead.length ≤ (xs.drop i).length
    · exact Or.inl ⟨i, startsWith_of_append hi hlen⟩
    · exfalso
      have hlt : (xs.drop i).length < reviewHead.length := Nat.lt_of_not_le hlen
      have hl := eq_append_of_startsWith hi
      have lhs : (xs.drop i ++ c :: ys)[(xs.drop i).length]? = some c := by
        rw [List.getElem?_append_right (Nat.le_refl _)]
        simp
      have rhs : (reviewHead ++ (xs.drop i ++ c :: ys).drop reviewHead.length)[(xs.drop i).length]?
          = reviewHead[(xs.drop i).length]? := List.getElem?_append_left hlt
      have hmem : c ∈ reviewHead := by
        apply List.getElem?_mem
        rw [← rhs, ← hl, lhs]
      exact hc hmem
  · have hgt : xs.length < i := Nat.lt_of_not_le hile
    rw [drop_append_gt xs (c :: ys) hgt,
      show i - xs.length = (i - xs.length - 1) + 1 from by omega,
      List.drop_succ_cons] at hi
    exact Or.inr ⟨i - xs.length - 1, hi⟩

theorem scanReview_none_of_noMarker {l : List Char} (hm : ¬ hasMarker l) :
    scanReview l = none := by
  induction l with
  | nil => rfl
  | cons c cs ih =>
    have h0 : matchReviewAt (c :: cs) = none := by
      unfold matchReviewAt
      cases hs : startsWith reviewHead (c :: cs) with
      | false => rfl
      | true => exact absurd ⟨0, by simpa using hs⟩ hm
    rw [scanReview_cons_none h0]
    exact ih (fun h => hm (hasMarker_of_cons h))

theorem matchReviewAt_boundary_none (bs rest : List Char)
    (hm : ¬ hasMarker bs) : matchReviewAt (bs ++ '#' :: rest) = none := by
  unfold matchReviewAt
  cases hs : startsWith reviewHead (bs ++ '#' :: rest) with
  | false => rfl
  | true =>
    exfalso
    by_cases hlen : reviewHead.length ≤ bs.length
    · exact hm ⟨0, by simpa using startsWith_of_append hs hlen⟩
    · have hlt : bs.length < reviewHead.length := Nat.lt_of_not_le hlen
      have hl := eq_append_of_startsWith hs
      have lhs : (bs ++ '#' :: rest)[bs.length]? = some '#' := by
        rw [List.getElem?_append_right (Nat.le_refl _)]
        simp
      have rhs : (reviewHead ++ (bs ++ '#' :: rest).drop reviewHead.length)[bs.length]?
          = reviewHead[bs.length]? := List.getElem?_append_left hlt
      have hmem : ('#' : Char) ∈ reviewHead := by
        apply List.getElem?_mem
        rw [← rhs, ← hl, lhs]
      exact absurd hmem (by decide)

theorem scanReview_append_hash (bs rest : List Char) (hm : ¬ hasMarker bs) :
    scanReview (bs ++ '#' :: rest) = scanReview ('#' :: rest) := by
  induction bs with
  | nil => rfl
  | cons c cs ih =>
    rw [List.cons_append,
      scanReview_cons_none (by
        rw [← List.cons_append]
        exact matchReviewAt_boundary_none (c :: cs) rest hm)]
    exact ih (fun h => hm (hasMarker_of_cons h))

theorem scanReview_fragment (base rid : List Char) (hm : ¬ hasMarker base)
    (h1 : rid ≠ []) (h2 : ∀ a ∈ rid, a.isDigit = true) :
    scanReview (base ++ '#' :: (reviewHead ++ rid)) = some ⟨rid⟩ := by
  rw [scanReview_append_hash base _ hm]
  rw [scanReview_cons_none (matchReviewAt_hash _)]
  exact scanReview_of_match (matchReviewAt_append_digits rid h1 h2)

theorem matchUrlAt_full (owner repo num rest : List Char)
    (ho : owner ≠ []) (ho2 : ∀ a ∈ owner, (a != '/') = true)
    (hr : repo ≠ []) (hr2 : ∀ a ∈ repo, (a != '/') = true)
    (hn : num ≠ []) (hn2 : ∀ a ∈ num, a.isDigit = true)
    (hrest : ∀ c, rest.head? = some c → c.isDigit = false) :
    matchUrlAt (urlHead ++ (owner ++ '/' :: (repo ++ '/' ::
        ("pull/".data ++ (num ++ rest)))))
      = some (⟨owner ++ '/' :: repo⟩, ⟨num⟩) := by
  have hslash : (('/' : Char) != '/') = false := by decide
  have h1 := takeWhile_append_cons (p := fun c => c != '/') owner '/'
    (repo ++ '/' :: ("pull/".data ++ (num ++ rest))) ho2 hslash
  have h2 := takeWhile_append_cons (p := fun c => c != '/') repo '/'
    ("pull/".data ++ (num ++ rest)) hr2 hslash
  have h3 : (num ++ rest).takeWhile Char.isDigit = num := by
    cases hre : rest with
    | nil =>
      rw [List.append_nil]
      exact List.takeWhile_eq_self_iff.mpr (by simpa using hn2)
    | cons c cs =>
      exact (takeWhile_append_cons num c cs hn2 (hrest c (by rw [hre]; rfl))).1
  unfold matchUrlAt
  rw [startsWith_append, if_pos rfl, List.drop_left]
  have h4 : startsWith pullSeg ('/' :: ("pull/".data ++ (num ++ rest))) = true :=
    startsWith_append pullSeg (num ++ rest)
  have h5 : List.drop pullSeg.length ('/' :: ("pull/".data ++ (num ++ rest)))
      = num ++ rest := List.drop_left pullSeg (num ++ rest)
  simp only [h1.1, h1.2, h2.1, h2.2, isEmpty_false_of_ne_nil ho,
    isEmpty_false_of_ne_nil hr, Bool.or_self, Bool.false_eq_true, if_false,
    h4, eq_self_iff_true, if_true, h5, h3, isEmpty_false_of_ne_nil hn]

theorem scanUrl_cons_eq (c : Char) (cs : List Char) :
    scanUrl (c :: cs)
      = match matchUrlAt (c :: cs) with
        | some r => some r
        | none => scanUrl cs := rfl

theorem scanUrl_of_match {l : List Char} {r : String × String}
    (h : matchUrlAt l = some r) : scanUrl l = some r := by
  cases l with
  | nil =>
    rw [show matchUrlAt [] = none from rfl] at h
    cases h
  | cons c cs =>
    rw [scanUrl_cons_eq, h]

theorem scanUrl_append_isSome (xs ys : List Char)
    (h : (scanUrl ys).isSome = true) : (scanUrl (xs ++ ys)).isSome = true := by
  induction xs with
  | nil => simpa using h
  | cons c cs ih =>
    rw [List.cons_append, scanUrl_cons_eq]
    cases hm : matchUrlAt (c :: (cs ++ ys)) with
    | some r => rfl
    | none => simpa using ih

/-- The canonical well-formed PR URL built from owner, repo and number. -/
def prUrl (owner repo num : String) : String :=
  "https://github.com/" ++ owner ++ "/" ++ repo ++ "/pull/" ++ num

theorem prUrl_data_append (o r n : String) (tail : List Char) :
    (prUrl o r n).data ++ tail
      = urlHead ++ (o.data ++ '/' :: (r.data ++ '/' ::
          ("pull/".data ++ (n.data ++ tail)))) := by
  have hs : ("/" : String).data = ['/'] := rfl
  have hp : ("/pull/" : String).data = '/' :: "pull/".data := rfl
  simp [prUrl, urlHead, String.data_append, hs, hp, List.append_assoc]

theorem repoString_eq (o r : String) :
    (⟨o.data ++ '/' :: r.data⟩ : String) = o ++ "/" ++ r := by
  apply String.ext
  simp [String.data_append]

theorem scanUrl_prUrl (o r n : String) (tail : List Char)
    (ho : o.data ≠ []) (ho2 : ∀ a ∈ o.data, (a != '/') = true)
    (hr : r.data ≠ []) (hr2 : ∀ a ∈ r.data, (a != '/') = true)
    (hn : n.data ≠ []) (hn2 : ∀ a ∈ n.data, a.isDigit = true)
    (htail : ∀ c, tail.head? = some c → c.isDigit = false) :
    scanUrl ((prUrl o r n).data ++ tail) = some (o ++ "/" ++ r, n) := by
  rw [prUrl_data_append]
  rw [scanUrl_of_match
    (matchUrlAt_full o.data r.data n.data tail ho ho2 hr hr2 hn hn2 htail)]
  rw [repoString_eq]

/-- A URL path segment such as owner or repo: non-empty, no slash. -/
def segOk (s : String) : Prop :=
  s.data ≠ [] ∧ ∀ a ∈ s.data, (a != '/') = true

/-- A numeric identifier: non-empty, digits only. -/
def numOk (s : String) : Prop :=
  s.data ≠ [] ∧ ∀ a ∈ s.data, a.isDigit = true

theorem pyIsdigit_false_of_mem {s : String} {c : Char} (hc : c ∈ s.data)
    (hd : c.isDigit = false) : pyIsdigit s = false := by
  unfold pyIsdigit
  cases hall : s.data.all Char.isDigit with
  | false => simp
  | true =>
    exfalso
    have := List.all_eq_true.mp hall c hc
    rw [hd] at this
    cases this

theorem prUrl_data_eq (o r n : String) :
    (prUrl o r n).data
      = urlHead ++ (o.data ++ '/' :: (r.data ++ '/' ::
          ("pull/".data ++ n.data))) := by
  have h := prUrl_data_append o r n []
  simpa using h

theorem colon_mem_prUrl (o r n : String) : (':' : Char) ∈ (prUrl o r n).data := by
  rw [prUrl_data_eq]
  exact List.mem_append_left _ (by decide)

theorem prUrl_data_eq2 (o r n : String) :
    (prUrl o r n).data
      = "https:".data ++ '/' :: ('/' :: ("github.com".data ++ '/' ::
          (o.data ++ '/' :: (r.data ++ '/' :: ("pull".data ++ '/' :: n.data))))) := by
  rw [prUrl_data_eq]
  rfl

theorem noMarker_prUrl (o r n : String) (ho3 : ¬ hasMarker o.data)
    (hr3 : ¬ hasMarker r.data) (hn2 : ∀ a ∈ n.data, a.isDigit = true) :
    ¬ hasMarker (prUrl o r n).data := by
  rw [prUrl_data_eq2]
  intro h
  have hslash : ('/' : Char) ∉ reviewHead := by decide
  rcases hasMarker_append_cons hslash h with h | h
  · exact absurd (hasMarker_length h) (by decide)
  · rcases @hasMarker_append_cons [] _ '/' hslash h with h | h
    · exact absurd (hasMarker_length h) (by decide)
    · rcases hasMarker_append_cons hslash h with h | h
      · exact absurd (hasMarker_length h) (by decide)
      · rcases hasMarker_append_cons hslash h with h | h
        · exact ho3 h
        · rcases hasMarker_append_cons hslash h with h | h
          · exact hr3 h
          · rcases hasMarker_append_cons hslash h with h | h
            · exact absurd (hasMarker_length h) (by decide)
            · obtain ⟨i, hi⟩ := h
              have hp : ('p' : Char) ∈ n.data := by
                apply List.drop_subset i n.data
                rw [eq_append_of_startsWith hi]
                exact List.mem_append_left _ (by decide)
              have := hn2 'p' hp
              rw [show ('p' : Char).isDigit = false from rfl] at this
              cases this

/-! ## C6, C7: identifier parser -/

/-- C6 counterexample: the empty string consists (vacuously) entirely of
digits, but Python `"".isdigit()` is `False`, so the parser raises instead
of returning `(None, "", None)`. -/
theorem c6_empty_digit_string :
    "".data.all Char.isDigit = true
    ∧ parse_pr_url ""
        = .error "Invalid input. Provide either a GitHub PR URL or PR number." :=
  ⟨rfl, rfl⟩

/-- C6, amended: for every NON-EMPTY all-digit string the parser returns
(no repo, that string, no review id); every well-formed PR URL (owner and
repo non-empty slash-free segments that do not themselves contain the
`pullrequestreview-` marker as a substring, and a non-empty digit run as
pull number) parses to its owner/repo pair and number, with the review id
present exactly when a `pullrequestreview-` fragment follows; and the
concrete scenario URL parses as claimed. -/
theorem c6_parse_amended :
    (∀ s : String, s.data ≠ [] → s.data.all Char.isDigit = true →
      parse_pr_url s = .ok (none, s, none))
    ∧ (∀ o r n : String, segOk o → segOk r → numOk n →
        ¬ hasMarker o.data → ¬ hasMarker r.data →
        parse_pr_url (prUrl o r n) = .ok (some (o ++ "/" ++ r), n, none))
    ∧ (∀ o r n rid : String, segOk o → segOk r → numOk n → numOk rid →
        ¬ hasMarker o.data → ¬ hasMarker r.data →
        parse_pr_url (prUrl o r n ++ "#pullrequestreview-" ++ rid)
          = .ok (some (o ++ "/" ++ r), n, some rid))
    ∧ parse_pr_url "https://github.com/acme/widgets/pull/42#pullrequestreview-777"
        = .ok (some "acme/widgets", "42", some "777") := by
  refine ⟨?_, ?_, ?_, rfl⟩
  · intro s hne hall
    have h : pyIsdigit s = true := by
      simp [pyIsdigit, isEmpty_false_of_ne_nil hne, hall]
    simp [parse_pr_url, h]
  · intro o r n ho hr hn ho3 hr3
    have hpy : pyIsdigit (prUrl o r n) = false :=
      pyIsdigit_false_of_mem (colon_mem_prUrl o r n) (by decide)
    have hscan : scanUrl (prUrl o r n).data = some (o ++ "/" ++ r, n) := by
      have h := scanUrl_prUrl o r n [] ho.1 ho.2 hr.1 hr.2 hn.1 hn.2
        (fun c h => by cases h)
      simpa using h
    have hrev : scanReview (prUrl o r n).data = none :=
      scanReview_none_of_noMarker (noMarker_prUrl o r n ho3 hr3 hn.2)
    simp [parse_pr_url, hpy, hscan, hrev]
  · intro o r n rid ho hr hn hrid ho3 hr3
    have hdata : (prUrl o r n ++ "#pullrequestreview-" ++ rid).data
        = (prUrl o r n).data ++ ('#' :: (reviewHead ++ rid.data)) := by
      rw [String.data_append, String.data_append, List.append_assoc]
      rfl
    have hpy : pyIsdigit (prUrl o r n ++ "#pullrequestreview-" ++ rid) = false := by
      apply pyIsdigit_false_of_mem (c := ':')
      · rw [hdata]
        exact List.mem_append_left _ (colon_mem_prUrl o r n)
      · decide
    have hscan : scanUrl (prUrl o r n ++ "#pullrequestreview-" ++ rid).data
        = some (o ++ "/" ++ r, n) := by
      rw [hdata]
      exact scanUrl_prUrl o r n ('#' :: (reviewHead ++ rid.data)) ho.1 ho.2
        hr.1 hr.2 hn.1 hn.2 (fun c h => by cases h; decide)
    have hrev : scanReview (prUrl o r n ++ "#pullrequestreview-" ++ rid).data
        = some ⟨rid.data⟩ := by
      rw [hdata]
      exact scanReview_fragment _ _ (noMarker_prUrl o r n ho3 hr3 hn.2)
        hrid.1 hrid.2
    unfold parse_pr_url
    rw [if_neg (by simp [hpy])]
    rw [hscan, hrev]

/-- Closed instance of the amended C6 theorem on all three universally
quantified parts. -/
theorem c6_parse_amended_witness :
    parse_pr_url "937" = .ok (none, "937", none)
    ∧ parse_pr_url (prUrl "acme" "widgets" "42")
        = .ok (some ("acme" ++ "/" ++ "widgets"), "42", none)
    ∧ parse_pr_url (prUrl "acme" "widgets" "42" ++ "#pullrequestreview-" ++ "777")
        = .ok (some ("acme" ++ "/" ++ "widgets"), "42", some "777") :=
  ⟨c6_parse_amended.1 "937" (by decide) (by decide),
   c6_parse_amended.2.1 "acme" "widgets" "42" ⟨by decide, by decide⟩
     ⟨by decide, by decide⟩ ⟨by decide, by decide⟩
     (fun h => absurd (hasMarker_length h) (by decide))
     (fun h => absurd (hasMarker_length h) (by decide)),
   c6_parse_amended.2.2.1 "acme" "widgets" "42" "777" ⟨by decide, by decide⟩
     ⟨by decide, by decide⟩ ⟨by decide, by decide⟩ ⟨by decide, by decide⟩
     (fun h => absurd (hasMarker_length h) (by decide))
     (fun h => absurd (hasMarker_length h) (by decide))⟩

/-- C7 counterexample: the parser does fail on malformed input, but the
exception message is the GitHub-branded one, not the message stated in the
claim. -/
theorem c7_error_message_differs :
    parse_pr_url "xyz"
      = .error "Invalid input. Provide either a GitHub PR URL or PR number."
    ∧ "Invalid input. Provide either a GitHub PR URL or PR number."
      ≠ "Invalid input. Provide either a platform PR URL or a PR number." :=
  ⟨rfl, by decide⟩

/-- C7, amended: for every input string that is neither all-digits (in the
Python `isdigit` sense) nor contains a PR-URL-shaped substring, the parser
raises `ValueError` with the message
`Invalid input. Provide either a GitHub PR URL or PR number.` and produces
no result. -/
theorem c7_malformed_input_amended (s : String)
    (h1 : pyIsdigit s = false) (h2 : scanUrl s.data = none) :
    parse_pr_url s
      = .error "Invalid input. Provide either a GitHub PR URL or PR number." := by
  unfold parse_pr_url
  rw [if_neg (by simp [h1]), h2]

/-- Closed instance of the amended C7 theorem. -/
theorem c7_malformed_input_amended_witness :
    parse_pr_url "hello world"
      = .error "Invalid input. Provide either a GitHub PR URL or PR number." :=
  c7_malformed_input_amended "hello world" (by decide) rfl

/-! ## C10: substring search semantics -/

/-- C10: URL matching is substring search, not a full-string match. With
arbitrary text before and after a PR-URL-shaped substring, parsing
succeeds; the result uses the first (leftmost) match and the review
fragment is searched in the ENTIRE input string, so a fragment in
unrelated surrounding text is still taken as the review id. -/
theorem c10_substring_search :
    (∀ (pre post o r n : String), segOk o → segOk r → numOk n →
      (∀ c, post.data.head? = some c → c.isDigit = false) →
      ∃ rep num rv,
        parse_pr_url ⟨pre.data ++ ((prUrl o r n).data ++ post.data)⟩
          = .ok (some rep, num, rv))
    ∧ (∀ (s rep num : String), pyIsdigit s = false →
        scanUrl s.data = some (rep, num) →
        parse_pr_url s = .ok (some rep, num, scanReview s.data))
    ∧ parse_pr_url "see pullrequestreview-9 and https://github.com/a/b/pull/7 done"
        = .ok (some "a/b", "7", some "9") := by
  refine ⟨?_, ?_, rfl⟩
  · intro pre post o r n ho hr hn hpost
    have hpy : pyIsdigit ⟨pre.data ++ ((prUrl o r n).data ++ post.data)⟩ = false := by
      apply pyIsdigit_false_of_mem (c := ':')
      · exact List.mem_append_right _
          (List.mem_append_left _ (colon_mem_prUrl o r n))
      · decide
    have hsome : (scanUrl (pre.data ++ ((prUrl o r n).data ++ post.data))).isSome
        = true := by
      apply scanUrl_append_isSome
      rw [scanUrl_prUrl o r n post.data ho.1 ho.2 hr.1 hr.2 hn.1 hn.2 hpost]
      rfl
    obtain ⟨⟨rep, num⟩, hval⟩ := Option.isSome_iff_exists.mp hsome
    refine ⟨rep, num, scanReview (pre.data ++ ((prUrl o r n).data ++ post.data)), ?_⟩
    unfold parse_pr_url
    rw [if_neg (by simp [hpy])]
    rw [show (⟨pre.data ++ ((prUrl o r n).data ++ post.data)⟩ : String).data
      = pre.data ++ ((prUrl o r n).data ++ post.data) from rfl, hval]
  · intro s rep num h1 h2
    unfold parse_pr_url
    rw [if_neg (by simp [h1]), h2]

/-- Closed instance of C10 on its quantified parts. -/
theorem c10_substring_search_witness :
    (∃ rep num rv,
      parse_pr_url ⟨"see ".data ++ ((prUrl "a" "b" "7").data ++ " end".data)⟩
        = .ok (some rep, num, rv))
    ∧ parse_pr_url "x https://github.com/a/b/pull/7"
        = .ok (some "a/b", "7", none) := by
  constructor
  · exact c10_substring_search.1 "see " " end" "a" "b" "7"
      ⟨by decide, by decide⟩ ⟨by decide, by decide⟩ ⟨by decide, by decide⟩
      (fun c h => by cases h; decide)
  · have h := c10_substring_search.2.1 "x https://github.com/a/b/pull/7"
      "a/b" "7" (by decide) rfl
    rw [h]
    rfl
